import Mathlib

/-!
# OMNeT++ declaration macros (`include/macros.h`)

A shallow embedding of the registration macros of `macros.h`:
`Define_Network`, `Define_Channel`, `Define_Function`, `Define_Function2`,
`Register_Class`, `Define_Module`, `Define_Module_Like`, the module interface
table macros `ModuleInterface` / `Gate` / `Parameter` / `EndInterface`,
`Register_ModuleInterface`, and the gate direction / parameter type constants.

A macro becomes a Lean function from its arguments to what it expands to.
Stringizing `#NAME` and token pasting `NAME##__net` act on the spelling of the
argument, which is a `String` here.  The headers `onstartup.h`, `carray.h` and
`ctypes.h` that the macros rely on are not part of the sources; the pieces of
them that are needed are modelled from the specification and marked as such.
-/

namespace Omnetpp

/-! ## Module interface tables (macros.h, lines 158-185) -/

/-- One row of a module interface table, `cModuleInterface::DeclarationItem`:
the four initialisers written by the macros are a tag character, a name
(`NULL` is `none`), a type mask (`NULL` is `none`) and a gate direction
character (`0` is the NUL character). -/
structure DeclarationItem where
  what : Char
  name : Option String
  types : Option String
  type : Char
  deriving DecidableEq, Repr

/-- `#define GateDir_Input 'I'`. -/
def GateDir_Input : Char := 'I'

/-- `#define GateDir_Output 'O'`. -/
def GateDir_Output : Char := 'O'

/-- `#define ParType_Const "#"`. -/
def ParType_Const : String := "#"

/-- `#define ParType_Any "*"`. -/
def ParType_Any : String := "*"

/-- `#define ParType_Numeric "LDCXFTB"`. -/
def ParType_Numeric : String := "LDCXFTB"

/-- `#define ParType_Bool "LDCXFTB"`. -/
def ParType_Bool : String := "LDCXFTB"

/-- `#define ParType_String "S"`. -/
def ParType_String : String := "S"

/-- `#define ParType_XML "M"`. -/
def ParType_XML : String := "M"

/-- `#define Gate(NAME,TYPE) {'G', #NAME, NULL, TYPE},`. -/
def Gate (NAME : String) (TYPE : Char) : DeclarationItem :=
  { what := 'G', name := some NAME, types := none, type := TYPE }

/-- `#define Parameter(NAME,TYPES) {'P', #NAME, TYPES, 0},`. -/
def Parameter (NAME : String) (TYPES : String) : DeclarationItem :=
  { what := 'P', name := some NAME, types := some TYPES, type := Char.ofNat 0 }

/-- The row written by `#define EndInterface {'E', NULL, NULL, 0}};`. -/
def EndInterface : DeclarationItem :=
  { what := 'E', name := none, types := none, type := Char.ofNat 0 }

/-- A line that may stand between `ModuleInterface(C)` and `EndInterface`. -/
inductive InterfaceLine where
  | Gate (NAME : String) (TYPE : Char)
  | Parameter (NAME : String) (TYPES : String)
  deriving DecidableEq, Repr

/-- Macro expansion of one line of an interface declaration. -/
def InterfaceLine.expand : InterfaceLine → DeclarationItem
  | .Gate NAME TYPE => Omnetpp.Gate NAME TYPE
  | .Parameter NAME TYPES => Omnetpp.Parameter NAME TYPES

/-- A static array definition `static DeclarationItem IDENT[] = { ... };`. -/
structure DescriptorArray where
  ident : String
  items : List DeclarationItem
  deriving DecidableEq, Repr

/-- The block
`ModuleInterface(CLASSNAME) line ... line EndInterface`:
`ModuleInterface` opens the initialiser of the array `CLASSNAME##__descr`,
every line contributes its row followed by a comma, and `EndInterface`
contributes the last row and closes the initialiser. -/
def ModuleInterface (CLASSNAME : String) (lines : List InterfaceLine) : DescriptorArray :=
  { ident := CLASSNAME ++ "__descr"
    items := lines.map InterfaceLine.expand ++ [EndInterface] }

/-- Modelled from the spec: the consumer of an interface table (class
`cModuleInterface` of `ctypes.h`, not among the sources).  Enumeration yields
the rows in order up to and including the first row tagged `'E'` and stops
there, whatever follows. -/
def enumerate : List DeclarationItem → List DeclarationItem
  | [] => []
  | it :: rest => if it.what = 'E' then [it] else it :: enumerate rest

/-! ## Objects handed to the registries -/

/-- An object on the free store; `className` is its concrete class. -/
structure Object where
  className : String
  deriving DecidableEq, Repr

/-- The free store: every object constructed so far, oldest first.  A pointer
to an object is its position in this list. -/
abbrev Heap := List Object

/-- The expression `new CLASSNAME`: constructs an object of class `CLASSNAME`
and yields the pointer to it, which no earlier object has. -/
def new (CLASSNAME : String) (h : Heap) : Nat × Heap :=
  (h.length, h ++ [{ className := CLASSNAME }])

/-- A function definition `T *IDENT() {return new CLASSNAME;}` emitted by
`Register_Class`, `Define_Module` and `Define_Module_Like`, known by its
identifier and the class its body constructs. -/
structure CreateFunc where
  ident : String
  CLASSNAME : String
  deriving DecidableEq, Repr

/-- Calling a creation function runs its body `return new CLASSNAME;`. -/
def CreateFunc.call (f : CreateFunc) (h : Heap) : Nat × Heap :=
  new f.CLASSNAME h

/-- The function `CLASSNAME##__create` of `Register_Class`, `Define_Module`
and `Define_Module_Like`. -/
def CLASSNAME__create (CLASSNAME : String) : CreateFunc :=
  { ident := CLASSNAME ++ "__create", CLASSNAME := CLASSNAME }

/-- A pointer to a C function of zero to three `double` arguments, known by
the spelling of the function designator. -/
abbrev MathFunc := String

/-- The object `new NAME(#NAME)` of `Define_Network`: an instance of the
generated class `NAME`, constructed with the name string. -/
structure cNetworkType where
  className : String
  name : String
  deriving DecidableEq, Repr

/-- The object `new NAME(#NAME)` of `Define_Channel`. -/
structure cChannelType where
  className : String
  name : String
  deriving DecidableEq, Repr

/-- The constructor call `new cFunctionType(name, f, argcount)`. -/
structure cFunctionType where
  name : String
  f : MathFunc
  argcount : Int
  deriving DecidableEq, Repr

/-- The constructor call `new cClassRegister(name, creatorfunc)`. -/
structure cClassRegister where
  name : String
  creatorfunc : CreateFunc
  deriving DecidableEq, Repr

/-- The constructor call `new cModuleType(name, interfaceName, cf)`: the
registered name, the name of the NED interface it is coupled with, and the
creation function. -/
structure cModuleType where
  name : String
  interfaceName : String
  cf : CreateFunc
  deriving DecidableEq, Repr

/-- The constructor call `new cModuleInterface(name, descr)`. -/
structure cModuleInterface where
  name : String
  descr : List DeclarationItem
  deriving DecidableEq, Repr

/-! ## Declaration macros (macros.h, lines 47-131 and 172-173) -/

/-- The statement `REG.instance()->add(new ...);` that a declaration macro
passes to `EXECUTE_ON_STARTUP`, one constructor per registry. -/
inductive Registration where
  | networks (obj : cNetworkType)
  | channeltypes (obj : cChannelType)
  | functions (obj : cFunctionType)
  | classes (obj : cClassRegister)
  | modtypes (obj : cModuleType)
  | modinterfaces (obj : cModuleInterface)
  deriving DecidableEq, Repr

/-- An invocation `EXECUTE_ON_STARTUP(ident, code)`. -/
structure StartupCode where
  ident : String
  code : Registration
  deriving DecidableEq, Repr

/-- `Define_Network(NAME)`:
`EXECUTE_ON_STARTUP(NAME##__net, networks.instance()->add(new NAME(#NAME));)`. -/
def Define_Network (NAME : String) : StartupCode :=
  { ident := NAME ++ "__net"
    code := .networks { className := NAME, name := NAME } }

/-- `Define_Channel(NAME)`:
`EXECUTE_ON_STARTUP(NAME##__channelt, channeltypes.instance()->add(new NAME(#NAME));)`. -/
def Define_Channel (NAME : String) : StartupCode :=
  { ident := NAME ++ "__channelt"
    code := .channeltypes { className := NAME, name := NAME } }

/-- `Define_Function(NAME,ARGCOUNT)`:
`EXECUTE_ON_STARTUP(NAME##__##ARGCOUNT##__func,
functions.instance()->add(new cFunctionType(#NAME,NAME,ARGCOUNT));)`.
`ARGCOUNT` is written as the decimal numeral of a natural number; it is pasted
into the identifier as spelled and passed to the constructor as an `int`. -/
def Define_Function (NAME : String) (ARGCOUNT : Nat) : StartupCode :=
  { ident := NAME ++ "__" ++ toString ARGCOUNT ++ "__func"
    code := .functions { name := NAME, f := NAME, argcount := (ARGCOUNT : Int) } }

/-- `Define_Function2(NAME,FUNCTION,ARGCOUNT)`:
`EXECUTE_ON_STARTUP(NAME##__##ARGCOUNT##__func,
functions.instance()->add(new cFunctionType(#NAME,FUNCTION,ARGCOUNT));)`. -/
def Define_Function2 (NAME : String) (FUNCTION : MathFunc) (ARGCOUNT : Nat) : StartupCode :=
  { ident := NAME ++ "__" ++ toString ARGCOUNT ++ "__func"
    code := .functions { name := NAME, f := FUNCTION, argcount := (ARGCOUNT : Int) } }

/-- `Register_Class(CLASSNAME)`: defines `CLASSNAME##__create` and expands to
`EXECUTE_ON_STARTUP(CLASSNAME##__class,
classes.instance()->add(new cClassRegister(#CLASSNAME,CLASSNAME##__create));)`. -/
def Register_Class (CLASSNAME : String) : StartupCode :=
  { ident := CLASSNAME ++ "__class"
    code := .classes { name := CLASSNAME, creatorfunc := CLASSNAME__create CLASSNAME } }

/-- `Define_Module(CLASSNAME)`: defines `CLASSNAME##__create` and expands to
`EXECUTE_ON_STARTUP(CLASSNAME##__mod, modtypes.instance()->add(
new cModuleType(#CLASSNAME,#CLASSNAME,(ModuleCreateFunc)CLASSNAME##__create));)`. -/
def Define_Module (CLASSNAME : String) : StartupCode :=
  { ident := CLASSNAME ++ "__mod"
    code := .modtypes
      { name := CLASSNAME, interfaceName := CLASSNAME, cf := CLASSNAME__create CLASSNAME } }

/-- `Define_Module_Like(CLASSNAME,INTERFACENAME)`: as `Define_Module`, with
`#INTERFACENAME` as the second constructor argument. -/
def Define_Module_Like (CLASSNAME : String) (INTERFACENAME : String) : StartupCode :=
  { ident := CLASSNAME ++ "__mod"
    code := .modtypes
      { name := CLASSNAME, interfaceName := INTERFACENAME, cf := CLASSNAME__create CLASSNAME } }

/-- `Register_ModuleInterface(CLASSNAME)`:
`EXECUTE_ON_STARTUP(CLASSNAME##__if,
modinterfaces.instance()->add(new cModuleInterface(#CLASSNAME, CLASSNAME##__descr));)`.
The second argument here is the array that the identifier `CLASSNAME##__descr`
denotes. -/
def Register_ModuleInterface (CLASSNAME : String) (CLASSNAME__descr : List DeclarationItem) :
    StartupCode :=
  { ident := CLASSNAME ++ "__if"
    code := .modinterfaces { name := CLASSNAME, descr := CLASSNAME__descr } }

/-- The six kinds of entity a declaration macro registers. -/
inductive EntityKind where
  | network
  | channel
  | function
  | classReg
  | module
  | moduleInterface
  deriving DecidableEq, Repr

/-- A use of one of the declaration macros in a program. -/
inductive Declaration where
  | Define_Network (NAME : String)
  | Define_Channel (NAME : String)
  | Define_Function (NAME : String) (ARGCOUNT : Nat)
  | Define_Function2 (NAME : String) (FUNCTION : MathFunc) (ARGCOUNT : Nat)
  | Register_Class (CLASSNAME : String)
  | Define_Module (CLASSNAME : String)
  | Define_Module_Like (CLASSNAME : String) (INTERFACENAME : String)
  | Register_ModuleInterface (CLASSNAME : String) (CLASSNAME__descr : List DeclarationItem)
  deriving DecidableEq, Repr

/-- Macro expansion of a declaration. -/
def Declaration.expand : Declaration → StartupCode
  | .Define_Network NAME => Omnetpp.Define_Network NAME
  | .Define_Channel NAME => Omnetpp.Define_Channel NAME
  | .Define_Function NAME ARGCOUNT => Omnetpp.Define_Function NAME ARGCOUNT
  | .Define_Function2 NAME FUNCTION ARGCOUNT => Omnetpp.Define_Function2 NAME FUNCTION ARGCOUNT
  | .Register_Class CLASSNAME => Omnetpp.Register_Class CLASSNAME
  | .Define_Module CLASSNAME => Omnetpp.Define_Module CLASSNAME
  | .Define_Module_Like CLASSNAME INTERFACENAME =>
      Omnetpp.Define_Module_Like CLASSNAME INTERFACENAME
  | .Register_ModuleInterface CLASSNAME d => Omnetpp.Register_ModuleInterface CLASSNAME d

/-- The kind of entity a declaration registers. -/
def Declaration.kind : Declaration → EntityKind
  | .Define_Network _ => .network
  | .Define_Channel _ => .channel
  | .Define_Function _ _ => .function
  | .Define_Function2 _ _ _ => .function
  | .Register_Class _ => .classReg
  | .Define_Module _ => .module
  | .Define_Module_Like _ _ => .module
  | .Register_ModuleInterface _ _ => .moduleInterface

/-- The first macro argument, the name under which the entity is registered. -/
def Declaration.name : Declaration → String
  | .Define_Network NAME => NAME
  | .Define_Channel NAME => NAME
  | .Define_Function NAME _ => NAME
  | .Define_Function2 NAME _ _ => NAME
  | .Register_Class CLASSNAME => CLASSNAME
  | .Define_Module CLASSNAME => CLASSNAME
  | .Define_Module_Like CLASSNAME _ => CLASSNAME
  | .Register_ModuleInterface CLASSNAME _ => CLASSNAME

/-- The `ARGCOUNT` argument of a function declaration; other declarations
have none. -/
def Declaration.arity : Declaration → Option Nat
  | .Define_Function _ ARGCOUNT => some ARGCOUNT
  | .Define_Function2 _ _ ARGCOUNT => some ARGCOUNT
  | _ => none

/-! ## Registries, function registry, factory dispatch and startup queue

The classes behind `networks`, `channeltypes`, `functions`, `classes`,
`modtypes`, `modinterfaces` and behind `EXECUTE_ON_STARTUP` live in headers
that are not among the sources; what follows is their behaviour as the
specification words it. -/

/-- Modelled from the spec: the error taxonomy of the registries (the error
classes are not among the sources).  `UnknownNameError` is the lookup miss for
a class, function, module, channel or network name and carries the kind of
registry and the missing name. -/
inductive Error where
  | DuplicateNameError (name : String)
  | UnknownNameError (kind : EntityKind) (name : String)
  | InvalidArityError
  | MalformedInterfaceDescriptor
  | TypeMismatchError
  deriving DecidableEq, Repr

/-- Modelled from the spec: `UnknownClassError`, the name the specification
of `createOne` gives to the lookup miss in the class registry. -/
abbrev Error.UnknownClassError (name : String) : Error :=
  .UnknownNameError .classReg name

/-- Modelled from the spec: `UnknownFunctionError`, the name the specification
of `lookupFunction` gives to the lookup miss in the function registry. -/
abbrev Error.UnknownFunctionError (name : String) : Error :=
  .UnknownNameError .function name

/-- Modelled from the spec: `RegistryEntry<T>` (container classes of
`carray.h` are not among the sources), a key together with its payload.  The
key is the registered name; in the function registry, where two functions of
one name and different arities are distinct entries, it is the name together
with the arity. -/
structure RegistryEntry (κ : Type) (τ : Type) where
  name : κ
  payload : τ
  deriving DecidableEq, Repr

/-- Modelled from the spec: `NamedRegistry<T>` (not among the sources), the
entries of one registry in insertion order.  `instance()` yields the one
registry of its kind, which holds no entry before the first `add`. -/
abbrev NamedRegistry (κ : Type) (τ : Type) := List (RegistryEntry κ τ)

/-- Modelled from the spec: `add(name, payload)` of `NamedRegistry<T>` (not
among the sources) with the recommended duplicate policy: a new key is
inserted after the existing entries, an existing key has its entry
overwritten. -/
def NamedRegistry.add {κ τ : Type} [DecidableEq κ] (name : κ) (payload : τ) :
    NamedRegistry κ τ → NamedRegistry κ τ
  | [] => [{ name := name, payload := payload }]
  | e :: rest =>
      if e.name = name then { name := name, payload := payload } :: rest
      else e :: NamedRegistry.add name payload rest

/-- Modelled from the spec: the search behind `lookup` of `NamedRegistry<T>`
(not among the sources): the payload stored under a key, if any. -/
def NamedRegistry.find? {κ τ : Type} [DecidableEq κ] (name : κ) :
    NamedRegistry κ τ → Option τ
  | [] => none
  | e :: rest => if e.name = name then some e.payload else NamedRegistry.find? name rest

/-- Modelled from the spec: `lookup(name)` of `NamedRegistry<T>` (not among
the sources): the entry, or `UnknownNameError` if absent.  The registry is
passed through, so that what `lookup` does to it can be stated. -/
def NamedRegistry.lookup {τ : Type} (kind : EntityKind) (name : String)
    (r : NamedRegistry String τ) : Except Error τ × NamedRegistry String τ :=
  match NamedRegistry.find? name r with
  | some p => (.ok p, r)
  | none => (.error (.UnknownNameError kind name), r)

/-- Modelled from the spec: the function registry (`cFunctionType` and its
container are not among the sources), keyed by name and arity. -/
abbrev FunctionRegistry := NamedRegistry (String × Int) MathFunc

/-- Modelled from the spec: `registerFunction(name, fn, arity)` (the
constructor of `cFunctionType` is not among the sources): requires
`arity ∈ {0,1,2,3}` and fails with `InvalidArityError` otherwise. -/
def registerFunction (name : String) (fn : MathFunc) (arity : Int) (r : FunctionRegistry) :
    Except Error Unit × FunctionRegistry :=
  if 0 ≤ arity ∧ arity ≤ 3 then (.ok (), NamedRegistry.add (name, arity) fn r)
  else (.error .InvalidArityError, r)

/-- Modelled from the spec: `lookupFunction(name, arity)` (not among the
sources): the function of the entry that matches both name and arity, or
`UnknownFunctionError`. -/
def lookupFunction (name : String) (arity : Int) (r : FunctionRegistry) :
    Except Error MathFunc × FunctionRegistry :=
  match NamedRegistry.find? (name, arity) r with
  | some fn => (.ok fn, r)
  | none => (.error (Error.UnknownFunctionError name), r)

/-- Modelled from the spec: the six specialized registries that the macros
name `networks`, `channeltypes`, `functions`, `classes`, `modtypes` and
`modinterfaces` (their definitions are not among the sources). -/
structure Registries where
  networks : NamedRegistry String cNetworkType
  channeltypes : NamedRegistry String cChannelType
  functions : FunctionRegistry
  classes : NamedRegistry String CreateFunc
  modtypes : NamedRegistry String cModuleType
  modinterfaces : NamedRegistry String (List DeclarationItem)
  deriving DecidableEq, Repr

/-- Modelled from the spec: the registries before any registration has run
(lazy singletons, empty until the first `add`). -/
def Registries.empty : Registries :=
  { networks := [], channeltypes := [], functions := [], classes := [],
    modtypes := [], modinterfaces := [] }

/-- Modelled from the spec: what the statement `REG.instance()->add(new ...);`
does when it runs (the registries and the registered classes are not among
the sources).  The object is entered under its name; constructing a
`cFunctionType` is `registerFunction`, which may fail. -/
def Registration.exec : Registration → Registries → Except Error Unit × Registries
  | .networks obj, R =>
      (.ok (), { R with networks := NamedRegistry.add obj.name obj R.networks })
  | .channeltypes obj, R =>
      (.ok (), { R with channeltypes := NamedRegistry.add obj.name obj R.channeltypes })
  | .functions obj, R =>
      ((registerFunction obj.name obj.f obj.argcount R.functions).1,
       { R with functions := (registerFunction obj.name obj.f obj.argcount R.functions).2 })
  | .classes obj, R =>
      (.ok (), { R with classes := NamedRegistry.add obj.name obj.creatorfunc R.classes })
  | .modtypes obj, R =>
      (.ok (), { R with modtypes := NamedRegistry.add obj.name obj R.modtypes })
  | .modinterfaces obj, R =>
      (.ok (), { R with modinterfaces := NamedRegistry.add obj.name obj.descr R.modinterfaces })

/-- Modelled from the spec: `createOne(name)` (not among the sources): looks
the name up in the class registry, invokes the stored creation function and
returns the pointer to the newly constructed object; on a lookup miss it
fails with the error of the lookup and constructs nothing. -/
def createOne (name : String) (s : Registries × Heap) : Except Error Nat × (Registries × Heap) :=
  match NamedRegistry.lookup .classReg name s.1.classes with
  | (.ok f, classes) => (.ok (f.call s.2).1, ({ s.1 with classes := classes }, (f.call s.2).2))
  | (.error e, classes) => (.error e, ({ s.1 with classes := classes }, s.2))

/-- Modelled from the spec: `RegistrationAction` (`onstartup.h` is not among
the sources): an identifier and a zero-argument action on the process state,
which may fail. -/
structure RegistrationAction (σ : Type) where
  id : String
  action : σ → Except Error σ

/-- Modelled from the spec: `StartupRegistrationQueue` (`onstartup.h` is not
among the sources): the actions stored and not yet executed, in registration
order, and the identifiers of the actions executed so far. -/
structure StartupRegistrationQueue (σ : Type) where
  pending : List (RegistrationAction σ)
  executed : List String

/-- Modelled from the spec: the queue before any `register`. -/
def StartupRegistrationQueue.empty {σ : Type} : StartupRegistrationQueue σ :=
  { pending := [], executed := [] }

/-- Modelled from the spec: the loop of `run()` (`onstartup.h` is not among
the sources): the stored actions are taken in order; an action whose
identifier has been executed before is dropped, any other is executed and its
identifier recorded; an action that fails aborts startup. -/
def StartupRegistrationQueue.runPending {σ : Type} :
    List (RegistrationAction σ) → List String → σ → Except Error (List String × σ)
  | [], done, s => .ok (done, s)
  | a :: rest, done, s =>
      if a.id ∈ done then StartupRegistrationQueue.runPending rest done s
      else
        match a.action s with
        | .ok s' => StartupRegistrationQueue.runPending rest (done ++ [a.id]) s'
        | .error e => .error e

/-- Modelled from the spec: `run()` of the startup queue (`onstartup.h` is not
among the sources).  Executed actions are discarded from the queue. -/
def StartupRegistrationQueue.run {σ : Type} (q : StartupRegistrationQueue σ) (s : σ) :
    Except Error (StartupRegistrationQueue σ × σ) :=
  match StartupRegistrationQueue.runPending q.pending q.executed s with
  | .ok (done, s') => .ok ({ pending := [], executed := done }, s')
  | .error e => .error e

/-- Modelled from the spec: the action that runs the code of an
`EXECUTE_ON_STARTUP` invocation (`onstartup.h` is not among the sources). -/
def StartupCode.run (c : StartupCode) (R : Registries) : Except Error Registries :=
  match c.code.exec R with
  | (.ok _, R') => .ok R'
  | (.error e, _) => .error e

/-- The registration action of a declaration: the startup identifier and the
code of its `EXECUTE_ON_STARTUP` invocation. -/
def Declaration.action (d : Declaration) : RegistrationAction Registries :=
  { id := d.expand.ident, action := d.expand.run }

/-- Executing the registration code of each declaration once, in order,
stopping at the first failure. -/
def execAll : List Declaration → Registries → Except Error Registries
  | [], R => .ok R
  | d :: rest, R =>
      match d.expand.run R with
      | .ok R' => execAll rest R'
      | .error e => .error e

/-- The payload of the last `add` for a key in a sequence of `add` calls,
if the key occurs in it. -/
def lastAdd {κ τ : Type} [DecidableEq κ] (name : κ) : List (κ × τ) → Option τ
  | [] => none
  | c :: rest =>
      match lastAdd name rest with
      | some p => some p
      | none => if c.1 = name then some c.2 else none

/-- Performing a sequence of `add` calls on a registry, in order. -/
def addAll {κ τ : Type} [DecidableEq κ] (calls : List (κ × τ)) (r : NamedRegistry κ τ) :
    NamedRegistry κ τ :=
  calls.foldl (fun r c => NamedRegistry.add c.1 c.2 r) r

/-- The `registerFunction` call a declaration makes at startup, if it
declares a function: key (name, arity) and function pointer. -/
def Declaration.functionCall : Declaration → Option ((String × Int) × MathFunc)
  | .Define_Function NAME ARGCOUNT => some ((NAME, (ARGCOUNT : Int)), NAME)
  | .Define_Function2 NAME FUNCTION ARGCOUNT => some ((NAME, (ARGCOUNT : Int)), FUNCTION)
  | _ => none

/-- The `add` call on `classes` a declaration makes at startup, if it
registers a class: name and creation function. -/
def Declaration.classCall : Declaration → Option (String × CreateFunc)
  | .Register_Class CLASSNAME => some (CLASSNAME, CLASSNAME__create CLASSNAME)
  | _ => none

/-- The token that the declaration macros of a kind paste behind the name to
form the startup identifier. -/
def EntityKind.pasted : EntityKind → String
  | .network => "__net"
  | .channel => "__channelt"
  | .function => "__func"
  | .classReg => "__class"
  | .module => "__mod"
  | .moduleInterface => "__if"

/-- The part of the startup identifier in front of the pasted token: the name,
for a function declaration followed by `__` and the arity numeral. -/
def Declaration.stem : Declaration → String
  | .Define_Function NAME ARGCOUNT => NAME ++ "__" ++ toString ARGCOUNT
  | .Define_Function2 NAME _ ARGCOUNT => NAME ++ "__" ++ toString ARGCOUNT
  | d => d.name

/-! ## Theorems: module interface tables -/

theorem expand_what_ne_E (l : InterfaceLine) : l.expand.what ≠ 'E' := by
  cases l <;> simp [InterfaceLine.expand, Gate, Parameter]

theorem enumerate_append_End (items extra : List DeclarationItem)
    (h : ∀ it ∈ items, it.what ≠ 'E') :
    enumerate (items ++ EndInterface :: extra) = items ++ [EndInterface] := by
  induction items with
  | nil => simp [enumerate, EndInterface]
  | cons it rest ih =>
      have hit : it.what ≠ 'E' := h it (List.mem_cons_self _ _)
      have hrest : ∀ x ∈ rest, x.what ≠ 'E' := fun x hx => h x (List.mem_cons_of_mem _ hx)
      simp [enumerate, hit, ih hrest]

theorem filter_E_lines (lines : List InterfaceLine) :
    (lines.map InterfaceLine.expand).filter (fun it => decide (it.what = 'E')) = [] := by
  rw [List.filter_eq_nil_iff]
  intro it hit
  obtain ⟨l, _, rfl⟩ := List.mem_map.mp hit
  simpa using expand_what_ne_E l

/-- C1: the table written between `ModuleInterface(C)` and `EndInterface` is
exactly the declared entries in declaration order followed by the `End` row:
a line `Gate(NAME, TYPE)` is the row `('G', NAME, NULL, TYPE)`, a line
`Parameter(NAME, TYPES)` is the row `('P', NAME, TYPES, 0)`, and the `End` row
is `('E', NULL, NULL, 0)`.  The table holds exactly one row tagged `'E'`, the
`End` row, which is its last element; enumerating it yields the declared rows
followed by the terminator, also when further rows are appended behind the
terminator.  The example declares gates `in` (input), `out` (output) and the
parameter `rate` with the numeric mask. -/
theorem ModuleInterface_descriptor (CLASSNAME : String) (lines : List InterfaceLine)
    (extra : List DeclarationItem) :
    let declared : List DeclarationItem := lines.map (fun l =>
      match l with
      | .Gate NAME TYPE => { what := 'G', name := some NAME, types := none, type := TYPE }
      | .Parameter NAME TYPES =>
          { what := 'P', name := some NAME, types := some TYPES, type := Char.ofNat 0 })
    let End : DeclarationItem :=
      { what := 'E', name := none, types := none, type := Char.ofNat 0 }
    (ModuleInterface CLASSNAME lines).items = declared ++ [End] ∧
    (ModuleInterface CLASSNAME lines).items.length = lines.length + 1 ∧
    (∀ it ∈ declared, it.what = 'G' ∨ it.what = 'P') ∧
    (ModuleInterface CLASSNAME lines).items.filter (fun it => decide (it.what = 'E'))
        = [End] ∧
    (ModuleInterface CLASSNAME lines).items.getLast? = some End ∧
    enumerate (ModuleInterface CLASSNAME lines).items = declared ++ [End] ∧
    (enumerate (ModuleInterface CLASSNAME lines).items).dropLast = declared ∧
    enumerate ((ModuleInterface CLASSNAME lines).items ++ extra) = declared ++ [End] ∧
    (ModuleInterface "X" [.Gate "in" GateDir_Input, .Gate "out" GateDir_Output,
        .Parameter "rate" ParType_Numeric]).items
        = [{ what := 'G', name := some "in", types := none, type := 'I' },
           { what := 'G', name := some "out", types := none, type := 'O' },
           { what := 'P', name := some "rate", types := some "LDCXFTB", type := Char.ofNat 0 },
           { what := 'E', name := none, types := none, type := Char.ofNat 0 }] ∧
    enumerate ((ModuleInterface "X" [.Gate "in" GateDir_Input, .Gate "out" GateDir_Output,
        .Parameter "rate" ParType_Numeric]).items)
        = [{ what := 'G', name := some "in", types := none, type := 'I' },
           { what := 'G', name := some "out", types := none, type := 'O' },
           { what := 'P', name := some "rate", types := some "LDCXFTB", type := Char.ofNat 0 },
           { what := 'E', name := none, types := none, type := Char.ofNat 0 }] := by
  intro declared End
  have hdecl : declared = lines.map InterfaceLine.expand := by
    apply List.map_congr_left
    intro l _
    cases l <;> rfl
  have hEnd : End = EndInterface := rfl
  have hne : ∀ it ∈ lines.map InterfaceLine.expand, it.what ≠ 'E' := by
    intro it hit
    obtain ⟨l, _, rfl⟩ := List.mem_map.mp hit
    exact expand_what_ne_E l
  have henum := enumerate_append_End (lines.map InterfaceLine.expand) [] hne
  have henum2 := enumerate_append_End (lines.map InterfaceLine.expand) extra hne
  have hitems : (ModuleInterface CLASSNAME lines).items
      = lines.map InterfaceLine.expand ++ [EndInterface] := rfl
  rw [hdecl, hEnd, hitems]
  refine ⟨rfl, by simp, ?_, ?_, by simp, henum, ?_, ?_, rfl, rfl⟩
  · intro it hit
    obtain ⟨l, _, rfl⟩ := List.mem_map.mp hit
    cases l
    · exact Or.inl rfl
    · exact Or.inr rfl
  · simp only [List.filter_append, filter_E_lines]
    simp [EndInterface]
  · rw [henum]
    simp
  · simpa using henum2

/-- C8: the rows follow the fixed schema.  `Gate(NAME, TYPE)` gives tag `'G'`,
the name, no type mask and the direction `TYPE`, where the directions are
`'I'` for input and `'O'` for output and differ; `Parameter(NAME, TYPES)`
gives tag `'P'`, the name, the mask and direction `0`; `EndInterface` gives
tag `'E'`, no name, no mask and direction `0`.  The tags of rows written by
different macros differ, so the tag determines the kind of a row. -/
theorem descriptor_item_schema (NAME : String) (TYPE : Char) (TYPES : String)
    (NAME2 : String) :
    ((Gate NAME TYPE).what = 'G' ∧ (Gate NAME TYPE).name = some NAME ∧
      (Gate NAME TYPE).types = none ∧ (Gate NAME TYPE).type = TYPE) ∧
    (GateDir_Input = 'I' ∧ GateDir_Output = 'O' ∧ GateDir_Input ≠ GateDir_Output) ∧
    ((Parameter NAME TYPES).what = 'P' ∧ (Parameter NAME TYPES).name = some NAME ∧
      (Parameter NAME TYPES).types = some TYPES ∧
      (Parameter NAME TYPES).type = Char.ofNat 0) ∧
    (EndInterface.what = 'E' ∧ EndInterface.name = none ∧ EndInterface.types = none ∧
      EndInterface.type = Char.ofNat 0) ∧
    ((Gate NAME TYPE).what ≠ (Parameter NAME2 TYPES).what ∧
      (Gate NAME TYPE).what ≠ EndInterface.what ∧
      (Parameter NAME2 TYPES).what ≠ EndInterface.what) := by
  refine ⟨⟨rfl, rfl, rfl, rfl⟩, ⟨rfl, rfl, by decide⟩, ⟨rfl, rfl, rfl, rfl⟩,
    ⟨rfl, rfl, rfl, rfl⟩, ⟨?_, ?_, ?_⟩⟩ <;> simp [Gate, Parameter, EndInterface]

/-- C9: the parameter type masks are `Const = "#"`, `Any = "*"`,
`Numeric = "LDCXFTB"`, `Bool = "LDCXFTB"`, `String = "S"`, `XML = "M"`; the
numeric and the boolean mask are the same string, and the masks `Const`, `Any`,
numeric-or-boolean, `String` and `XML` have pairwise no character in common. -/
theorem ParType_vocabulary :
    (ParType_Const = "#" ∧ ParType_Any = "*" ∧ ParType_Numeric = "LDCXFTB" ∧
      ParType_Bool = "LDCXFTB" ∧ ParType_String = "S" ∧ ParType_XML = "M") ∧
    ParType_Numeric = ParType_Bool ∧
    List.Pairwise (fun a b : String => ∀ c ∈ a.toList, c ∉ b.toList)
      [ParType_Const, ParType_Any, ParType_Numeric, ParType_String, ParType_XML] := by
  refine ⟨⟨rfl, rfl, rfl, rfl, rfl, rfl⟩, rfl, ?_⟩
  decide

/-! ## Theorems: module type declarations -/

/-- C7: `Define_Module(C)` registers with `modtypes` the entry with registered
name `C`, interface name `C` and a creation function that constructs a `C`;
`Define_Module_Like(C, I)` registers the entry with registered name `C`,
interface name `I` and the same creation function.  So `Define_Module(C)` is
the registration `Define_Module_Like(C, C)`, and for distinct classes `C1`,
`C2` the declarations `Define_Module_Like(C1, I)` and
`Define_Module_Like(C2, I)` register two entries whose registered names
differ and whose interface name is `I`. -/
theorem Define_Module_registration (C I C1 C2 : String) (h : Heap) :
    (Define_Module C).code
        = .modtypes { name := C, interfaceName := C, cf := CLASSNAME__create C } ∧
    (Define_Module_Like C I).code
        = .modtypes { name := C, interfaceName := I, cf := CLASSNAME__create C } ∧
    (CLASSNAME__create C).call h = (h.length, h ++ [{ className := C }]) ∧
    Define_Module C = Define_Module_Like C C ∧
    (C1 ≠ C2 →
      ∃ e1 e2 : cModuleType,
        (Define_Module_Like C1 I).code = .modtypes e1 ∧
        (Define_Module_Like C2 I).code = .modtypes e2 ∧
        e1 ≠ e2 ∧ e1.name = C1 ∧ e2.name = C2 ∧ e1.name ≠ e2.name ∧
        e1.interfaceName = I ∧ e2.interfaceName = I) := by
  refine ⟨rfl, rfl, rfl, rfl, ?_⟩
  intro hne
  refine ⟨_, _, rfl, rfl, ?_, rfl, rfl, hne, rfl, rfl⟩
  intro heq
  exact hne (congrArg cModuleType.name heq)

theorem Define_Module_registration_witness :
    "Sink" ≠ "Source" ∧
    ∃ e1 e2 : cModuleType,
      (Define_Module_Like "Sink" "Node").code = .modtypes e1 ∧
      (Define_Module_Like "Source" "Node").code = .modtypes e2 ∧
      e1 ≠ e2 ∧ e1.name = "Sink" ∧ e2.name = "Source" ∧ e1.name ≠ e2.name ∧
      e1.interfaceName = "Node" ∧ e2.interfaceName = "Node" :=
  ⟨by decide, (Define_Module_registration "Sink" "Node" "Sink" "Source" []).2.2.2.2 (by decide)⟩

/-! ## Theorems: named registries -/

section Registry

variable {κ τ : Type} [DecidableEq κ]

theorem find?_add_self (k : κ) (p : τ) (r : NamedRegistry κ τ) :
    NamedRegistry.find? k (NamedRegistry.add k p r) = some p := by
  induction r with
  | nil => simp [NamedRegistry.add, NamedRegistry.find?]
  | cons e rest ih =>
      by_cases he : e.name = k
      · simp [NamedRegistry.add, NamedRegistry.find?, he]
      · simp [NamedRegistry.add, NamedRegistry.find?, he, ih]

theorem find?_add_ne (k k2 : κ) (p : τ) (r : NamedRegistry κ τ) (hk : k ≠ k2) :
    NamedRegistry.find? k2 (NamedRegistry.add k p r) = NamedRegistry.find? k2 r := by
  induction r with
  | nil => simp [NamedRegistry.add, NamedRegistry.find?, hk]
  | cons e rest ih =>
      by_cases he : e.name = k
      · have he2 : e.name ≠ k2 := by rw [he]; exact hk
        simp [NamedRegistry.add, NamedRegistry.find?, he, he2, hk]
      · by_cases he2 : e.name = k2
        · simp only [NamedRegistry.add, if_neg he, NamedRegistry.find?, if_pos he2]
        · simp only [NamedRegistry.add, if_neg he, NamedRegistry.find?, if_neg he2, ih]

theorem addAll_cons (c : κ × τ) (calls : List (κ × τ)) (r : NamedRegistry κ τ) :
    addAll (c :: calls) r = addAll calls (NamedRegistry.add c.1 c.2 r) := rfl

theorem find?_addAll (k : κ) (calls : List (κ × τ)) (r : NamedRegistry κ τ) :
    NamedRegistry.find? k (addAll calls r)
      = (lastAdd k calls).orElse (fun _ => NamedRegistry.find? k r) := by
  induction calls generalizing r with
  | nil => simp [addAll, lastAdd]
  | cons c rest ih =>
      rw [addAll_cons, ih]
      cases hl : lastAdd k rest with
      | some q => simp [lastAdd, hl]
      | none =>
          by_cases hc : c.1 = k
          · subst hc
            simp [lastAdd, hl, find?_add_self]
          · simp [lastAdd, hl, hc, find?_add_ne _ _ _ _ hc]

theorem lastAdd_eq_some (k : κ) (p : τ) (calls : List (κ × τ)) (h : lastAdd k calls = some p) :
    ∃ pre post, calls = pre ++ (k, p) :: post ∧ ∀ c ∈ post, c.1 ≠ k := by
  induction calls with
  | nil => simp [lastAdd] at h
  | cons c rest ih =>
      cases hl : lastAdd k rest with
      | some q =>
          have hq : q = p := by simpa [lastAdd, hl] using h
          subst hq
          obtain ⟨pre, post, hrest, hpost⟩ := ih hl
          exact ⟨c :: pre, post, by simp [hrest], hpost⟩
      | none =>
          by_cases hc : c.1 = k
          · have hp : c.2 = p := by simpa [lastAdd, hl, hc] using h
            have hnone : ∀ x ∈ rest, x.1 ≠ k := by
              intro x hx hxk
              clear h ih
              induction rest with
              | nil => simp at hx
              | cons y ys ihy =>
                  cases hly : lastAdd k ys with
                  | some q => simp [lastAdd, hly] at hl
                  | none =>
                      have hy : y.1 ≠ k := by
                        intro hyk
                        simp [lastAdd, hly, hyk] at hl
                      rcases List.mem_cons.mp hx with rfl | hx2
                      · exact hy hxk
                      · exact ihy hly hx2
            refine ⟨[], rest, ?_, hnone⟩
            cases c
            simp at hc hp
            simp [hc, hp]
          · simp [lastAdd, hl, hc] at h

theorem lastAdd_isSome_of_mem (k : κ) (calls : List (κ × τ)) (h : k ∈ calls.map Prod.fst) :
    ∃ p, lastAdd k calls = some p := by
  induction calls with
  | nil => simp at h
  | cons c rest ih =>
      cases hl : lastAdd k rest with
      | some q => exact ⟨q, by simp [lastAdd, hl]⟩
      | none =>
          by_cases hc : c.1 = k
          · exact ⟨c.2, by simp [lastAdd, hl, hc]⟩
          · have : k ∈ rest.map Prod.fst := by
              simp only [List.map_cons, List.mem_cons] at h
              rcases h with h | h
              · exact absurd h.symm hc
              · exact h
            obtain ⟨p, hp⟩ := ih this
            rw [hl] at hp
            cases hp

theorem lastAdd_eq_none (k : κ) (calls : List (κ × τ)) (h : k ∉ calls.map Prod.fst) :
    lastAdd k calls = none := by
  induction calls with
  | nil => rfl
  | cons c rest ih =>
      simp only [List.map_cons, List.mem_cons, not_or] at h
      have hc : c.1 ≠ k := fun hck => h.1 hck.symm
      simp [lastAdd, ih h.2, hc]

end Registry

/-- C5: after any sequence of `add(name, payload)` calls on a registry, for
every name that occurs in the sequence `lookup(name)` succeeds with the
payload of the last `add` for that name (the call after which no later call
has that name), and `lookup`, of any name, hands the registry back
unchanged. -/
theorem lookup_returns_last_add {τ : Type} (kind : EntityKind) (calls : List (String × τ))
    (r : NamedRegistry String τ) (name : String) (other : String)
    (hmem : name ∈ calls.map Prod.fst) :
    (∃ p pre post, calls = pre ++ (name, p) :: post ∧ (∀ c ∈ post, c.1 ≠ name) ∧
      NamedRegistry.lookup kind name (addAll calls r) = (.ok p, addAll calls r)) ∧
    (NamedRegistry.lookup kind other (addAll calls r)).2 = addAll calls r := by
  constructor
  · obtain ⟨p, hp⟩ := lastAdd_isSome_of_mem name calls hmem
    obtain ⟨pre, post, hcalls, hpost⟩ := lastAdd_eq_some name p calls hp
    refine ⟨p, pre, post, hcalls, hpost, ?_⟩
    have hfind := find?_addAll name calls r
    rw [hp] at hfind
    simp only [Option.orElse] at hfind
    simp [NamedRegistry.lookup, hfind]
  · unfold NamedRegistry.lookup
    split <;> rfl

theorem lookup_returns_last_add_witness :
    "B" ∈ [("A", 1), ("B", 2), ("A", 3), ("B", 4), ("C", 5)].map Prod.fst ∧
    ((∃ (p : Nat) (pre post : List (String × Nat)),
      [("A", 1), ("B", 2), ("A", 3), ("B", 4), ("C", 5)] = pre ++ ("B", p) :: post ∧
      (∀ c ∈ post, c.1 ≠ "B") ∧
      NamedRegistry.lookup .network "B"
          (addAll [("A", 1), ("B", 2), ("A", 3), ("B", 4), ("C", 5)] [])
        = (.ok p, addAll [("A", 1), ("B", 2), ("A", 3), ("B", 4), ("C", 5)] [])) ∧
    (NamedRegistry.lookup .network "D"
        (addAll [("A", 1), ("B", 2), ("A", 3), ("B", 4), ("C", 5)] [])).2
      = addAll [("A", 1), ("B", 2), ("A", 3), ("B", 4), ("C", 5)] []) :=
  ⟨by decide, lookup_returns_last_add .network _ [] "B" "D" (by decide)⟩

section RegistryKeys

variable {κ τ : Type} [DecidableEq κ]

theorem keys_add (k : κ) (p : τ) (r : NamedRegistry κ τ) :
    (NamedRegistry.add k p r).map RegistryEntry.name
      = if k ∈ r.map RegistryEntry.name then r.map RegistryEntry.name
        else r.map RegistryEntry.name ++ [k] := by
  induction r with
  | nil => simp [NamedRegistry.add]
  | cons e rest ih =>
      by_cases he : e.name = k
      · simp [NamedRegistry.add, he]
      · have hk : k ≠ e.name := fun hke => he hke.symm
        simp only [NamedRegistry.add, if_neg he, List.map_cons, ih, List.mem_cons, hk,
          false_or]
        split <;> simp

theorem nodup_keys_add (k : κ) (p : τ) (r : NamedRegistry κ τ)
    (h : (r.map RegistryEntry.name).Nodup) :
    ((NamedRegistry.add k p r).map RegistryEntry.name).Nodup := by
  rw [keys_add]
  split
  · exact h
  · rename_i hk
    rw [List.nodup_append]
    refine ⟨h, List.nodup_singleton k, ?_⟩
    intro a ha hak
    simp only [List.mem_singleton] at hak
    exact hk (hak ▸ ha)

theorem nodup_keys_addAll (calls : List (κ × τ)) (r : NamedRegistry κ τ)
    (h : (r.map RegistryEntry.name).Nodup) :
    ((addAll calls r).map RegistryEntry.name).Nodup := by
  induction calls generalizing r with
  | nil => exact h
  | cons c rest ih =>
      rw [addAll_cons]
      exact ih _ (nodup_keys_add c.1 c.2 r h)

theorem find?_of_mem (r : NamedRegistry κ τ) (h : (r.map RegistryEntry.name).Nodup)
    (e : RegistryEntry κ τ) (he : e ∈ r) :
    NamedRegistry.find? e.name r = some e.payload := by
  induction r with
  | nil => simp at he
  | cons e0 rest ih =>
      rw [List.map_cons, List.nodup_cons] at h
      rcases List.mem_cons.mp he with rfl | hmem
      · simp [NamedRegistry.find?]
      · have hne : e0.name ≠ e.name := by
          intro heq
          exact h.1 (heq ▸ List.mem_map_of_mem RegistryEntry.name hmem)
        simp only [NamedRegistry.find?, if_neg hne]
        exact ih h.2 hmem

theorem mem_of_find? (r : NamedRegistry κ τ) (k : κ) (p : τ)
    (h : NamedRegistry.find? k r = some p) : ({ name := k, payload := p } : RegistryEntry κ τ) ∈ r := by
  induction r with
  | nil => simp [NamedRegistry.find?] at h
  | cons e rest ih =>
      by_cases he : e.name = k
      · simp only [NamedRegistry.find?, if_pos he, Option.some.injEq] at h
        subst he
        subst h
        exact List.mem_cons_self _ _
      · simp only [NamedRegistry.find?, if_neg he] at h
        exact List.mem_cons_of_mem _ (ih h)

theorem find?_eq_none (r : NamedRegistry κ τ) (k : κ)
    (h : ¬ ∃ e ∈ r, e.name = k) : NamedRegistry.find? k r = none := by
  cases hf : NamedRegistry.find? k r with
  | none => rfl
  | some p => exact absurd ⟨_, mem_of_find? r k p hf, rfl⟩ h

theorem mem_addAll_nil_iff (calls : List (κ × τ)) (k : κ) :
    (∃ e ∈ addAll calls ([] : NamedRegistry κ τ), e.name = k) ↔ k ∈ calls.map Prod.fst := by
  constructor
  · rintro ⟨e, he, rfl⟩
    have hnd := nodup_keys_addAll calls ([] : NamedRegistry κ τ) List.nodup_nil
    have hfind := find?_of_mem _ hnd e he
    rw [find?_addAll] at hfind
    by_contra hk
    rw [lastAdd_eq_none _ _ hk] at hfind
    simp [Option.orElse, NamedRegistry.find?] at hfind
  · intro hk
    obtain ⟨p, hp⟩ := lastAdd_isSome_of_mem k calls hk
    have hfind := find?_addAll k calls ([] : NamedRegistry κ τ)
    rw [hp] at hfind
    simp only [Option.orElse] at hfind
    exact ⟨_, mem_of_find? _ k p hfind, rfl⟩

end RegistryKeys

/-! ## Theorems: executing the registration code of a program -/

theorem addAll_append {κ τ : Type} [DecidableEq κ] (l1 l2 : List (κ × τ))
    (r : NamedRegistry κ τ) : addAll (l1 ++ l2) r = addAll l2 (addAll l1 r) := by
  simp [addAll, List.foldl_append]

theorem filterMap_cons_toList {α β : Type} (f : α → Option β) (a : α) (l : List α) :
    (a :: l).filterMap f = (f a).toList ++ l.filterMap f := by
  cases h : f a <;> simp [List.filterMap_cons, h]

theorem run_ok_registries (d : Declaration) (R R2 : Registries)
    (h : d.expand.run R = .ok R2) :
    R2.classes = addAll d.classCall.toList R.classes ∧
    R2.functions = addAll d.functionCall.toList R.functions ∧
    (∀ k, d.arity = some k → k ≤ 3) := by
  cases d with
  | Define_Function NAME ARGCOUNT =>
      by_cases hr : 0 ≤ (ARGCOUNT : Int) ∧ (ARGCOUNT : Int) ≤ 3
      · simp only [Declaration.expand, Define_Function, StartupCode.run, Registration.exec,
          registerFunction, if_pos hr, Except.ok.injEq] at h
        subst h
        refine ⟨rfl, rfl, ?_⟩
        intro k hk
        simp only [Declaration.arity, Option.some.injEq] at hk
        omega
      · have hr2 : ¬ ARGCOUNT ≤ 3 := by omega
        simp [Declaration.expand, Define_Function, StartupCode.run, Registration.exec,
          registerFunction, hr2] at h
  | Define_Function2 NAME FUNCTION ARGCOUNT =>
      by_cases hr : 0 ≤ (ARGCOUNT : Int) ∧ (ARGCOUNT : Int) ≤ 3
      · simp only [Declaration.expand, Define_Function2, StartupCode.run, Registration.exec,
          registerFunction, if_pos hr, Except.ok.injEq] at h
        subst h
        refine ⟨rfl, rfl, ?_⟩
        intro k hk
        simp only [Declaration.arity, Option.some.injEq] at hk
        omega
      · have hr2 : ¬ ARGCOUNT ≤ 3 := by omega
        simp [Declaration.expand, Define_Function2, StartupCode.run, Registration.exec,
          registerFunction, hr2] at h
  | _ =>
      simp only [Declaration.expand, Define_Network, Define_Channel, Register_Class,
        Define_Module, Define_Module_Like, Register_ModuleInterface, StartupCode.run,
        Registration.exec, Except.ok.injEq] at h
      subst h
      exact ⟨rfl, rfl, by simp [Declaration.arity]⟩

theorem execAll_ok_registries (ds : List Declaration) (R0 R : Registries)
    (h : execAll ds R0 = .ok R) :
    R.classes = addAll (ds.filterMap Declaration.classCall) R0.classes ∧
    R.functions = addAll (ds.filterMap Declaration.functionCall) R0.functions := by
  induction ds generalizing R0 with
  | nil =>
      simp only [execAll, Except.ok.injEq] at h
      subst h
      exact ⟨rfl, rfl⟩
  | cons d rest ih =>
      simp only [execAll] at h
      cases hd : d.expand.run R0 with
      | error e => simp [hd] at h
      | ok R1 =>
          rw [hd] at h
          obtain ⟨hc, hf, _⟩ := run_ok_registries d R0 R1 hd
          obtain ⟨ihc, ihf⟩ := ih R1 h
          rw [filterMap_cons_toList, filterMap_cons_toList, addAll_append, addAll_append,
            ← hc, ← hf]
          exact ⟨ihc, ihf⟩

theorem classCall_payload (ds : List Declaration) (c : String × CreateFunc)
    (h : c ∈ ds.filterMap Declaration.classCall) :
    c.2 = CLASSNAME__create c.1 ∧ Declaration.Register_Class c.1 ∈ ds := by
  obtain ⟨d, hd, hcall⟩ := List.mem_filterMap.mp h
  cases d with
  | Register_Class CLASSNAME =>
      simp only [Declaration.classCall, Option.some.injEq] at hcall
      subst hcall
      exact ⟨rfl, hd⟩
  | _ => simp [Declaration.classCall] at hcall

theorem mem_classCalls (ds : List Declaration) (name : String) :
    name ∈ (ds.filterMap Declaration.classCall).map Prod.fst
      ↔ Declaration.Register_Class name ∈ ds := by
  constructor
  · intro h
    obtain ⟨c, hc, rfl⟩ := List.mem_map.mp h
    exact (classCall_payload ds c hc).2
  · intro h
    exact List.mem_map.mpr ⟨(name, CLASSNAME__create name),
      List.mem_filterMap.mpr ⟨_, h, rfl⟩, rfl⟩

/-! ## Theorems: class factory -/

/-- C2: after the registration code of a program has run, `createOne` of a
name registered with `Register_Class` finds the creation function stored
under that name and returns the pointer to an object of that class which it
newly constructs (the pointer is that of no earlier object), leaving the
registries as they are; `createOne` of a name that no `Register_Class`
declares fails with `UnknownNameError`, returns no object and changes neither
the registries nor the free store. -/
theorem createOne_by_name (ds : List Declaration) (R : Registries) (h : Heap) (name : String)
    (hstart : execAll ds Registries.empty = .ok R) :
    (Declaration.Register_Class name ∈ ds →
      NamedRegistry.find? name R.classes = some (CLASSNAME__create name) ∧
      createOne name (R, h) = (.ok h.length, (R, h ++ [{ className := name }])) ∧
      (h ++ [Object.mk name]).get? h.length = some (Object.mk name)) ∧
    (Declaration.Register_Class name ∉ ds →
      createOne name (R, h) = (.error (.UnknownNameError .classReg name), (R, h))) := by
  have hcl := (execAll_ok_registries ds _ R hstart).1
  have hfind := find?_addAll name (ds.filterMap Declaration.classCall)
    (Registries.empty).classes
  rw [← hcl] at hfind
  constructor
  · intro hreg
    obtain ⟨p, hp⟩ := lastAdd_isSome_of_mem name _ ((mem_classCalls ds name).mpr hreg)
    obtain ⟨pre, post, hcalls, _⟩ := lastAdd_eq_some name p _ hp
    have hmem : (name, p) ∈ ds.filterMap Declaration.classCall := by
      rw [hcalls]; simp
    have hpay : p = CLASSNAME__create name := (classCall_payload ds (name, p) hmem).1
    rw [hp] at hfind
    simp only [Option.orElse] at hfind
    subst hpay
    refine ⟨hfind, ?_, by simp⟩
    simp [createOne, NamedRegistry.lookup, hfind, CreateFunc.call, CLASSNAME__create, new]
  · intro hreg
    have hnone := lastAdd_eq_none name _ (fun hm => hreg ((mem_classCalls ds name).mp hm))
    rw [hnone] at hfind
    simp only [Option.orElse, Registries.empty, NamedRegistry.find?] at hfind
    simp [createOne, NamedRegistry.lookup, hfind]

theorem createOne_by_name_witness :
    execAll [.Register_Class "A", .Register_Class "B", .Register_Class "C"] Registries.empty
      = .ok { Registries.empty with
          classes := [⟨"A", CLASSNAME__create "A"⟩, ⟨"B", CLASSNAME__create "B"⟩,
            ⟨"C", CLASSNAME__create "C"⟩] } ∧
    (Declaration.Register_Class "B" ∈
        [Declaration.Register_Class "A", .Register_Class "B", .Register_Class "C"] ∧
      createOne "B" ({ Registries.empty with
            classes := [⟨"A", CLASSNAME__create "A"⟩, ⟨"B", CLASSNAME__create "B"⟩,
              ⟨"C", CLASSNAME__create "C"⟩] }, [{ className := "A" }])
        = (.ok 1, ({ Registries.empty with
            classes := [⟨"A", CLASSNAME__create "A"⟩, ⟨"B", CLASSNAME__create "B"⟩,
              ⟨"C", CLASSNAME__create "C"⟩] },
            [{ className := "A" }, { className := "B" }]))) ∧
    (Declaration.Register_Class "D" ∉
        [Declaration.Register_Class "A", .Register_Class "B", .Register_Class "C"] ∧
      createOne "D" ({ Registries.empty with
            classes := [⟨"A", CLASSNAME__create "A"⟩, ⟨"B", CLASSNAME__create "B"⟩,
              ⟨"C", CLASSNAME__create "C"⟩] }, [{ className := "A" }])
        = (.error (.UnknownNameError .classReg "D"), ({ Registries.empty with
            classes := [⟨"A", CLASSNAME__create "A"⟩, ⟨"B", CLASSNAME__create "B"⟩,
              ⟨"C", CLASSNAME__create "C"⟩] }, [{ className := "A" }]))) :=
  ⟨rfl,
    ⟨by decide,
      ((createOne_by_name [.Register_Class "A", .Register_Class "B", .Register_Class "C"] _
        [{ className := "A" }] "B" rfl).1 (by decide)).2.1⟩,
    ⟨by decide,
      (createOne_by_name [.Register_Class "A", .Register_Class "B", .Register_Class "C"] _
        [{ className := "A" }] "D" rfl).2 (by decide)⟩⟩

/-- Scenario A: with the classes `A`, `B`, `C` registered, `createOne` of each
returns an object of the matching class and `createOne("D")` fails. -/
theorem scenario_A :
    ∃ R, execAll [.Register_Class "A", .Register_Class "B", .Register_Class "C"]
        Registries.empty = .ok R ∧
      createOne "A" (R, []) = (.ok 0, (R, [{ className := "A" }])) ∧
      createOne "B" (R, []) = (.ok 0, (R, [{ className := "B" }])) ∧
      createOne "C" (R, []) = (.ok 0, (R, [{ className := "C" }])) ∧
      createOne "D" (R, []) = (.error (.UnknownNameError .classReg "D"), (R, [])) :=
  ⟨_, rfl, rfl, rfl, rfl, rfl⟩

/-! ## Theorems: function registry -/

/-- C4: `registerFunction(name, fn, arity)` with an arity outside
`{0,1,2,3}` fails with `InvalidArityError` and hands the function registry
back without a new entry; with an arity in `{0,1,2,3}` it succeeds and the
function is then found under that name and arity.  The registration code of
`Define_Function(NAME, k)` and `Define_Function2(NAME, F, k)` is this call
with arity `k`, so at startup it fails with `InvalidArityError` when `k > 3`
and succeeds otherwise. -/
theorem registerFunction_arity (name : String) (fn : MathFunc) (arity : Int)
    (r : FunctionRegistry) (NAME : String) (FUNCTION : MathFunc) (ARGCOUNT : Nat)
    (R : Registries) :
    ((arity = 0 ∨ arity = 1 ∨ arity = 2 ∨ arity = 3) →
      (registerFunction name fn arity r).1 = .ok () ∧
      lookupFunction name arity (registerFunction name fn arity r).2
        = (.ok fn, (registerFunction name fn arity r).2)) ∧
    (¬ (arity = 0 ∨ arity = 1 ∨ arity = 2 ∨ arity = 3) →
      registerFunction name fn arity r = (.error .InvalidArityError, r)) ∧
    ((Define_Function NAME ARGCOUNT).code.exec R
        = ((registerFunction NAME NAME ARGCOUNT R.functions).1,
           { R with functions := (registerFunction NAME NAME ARGCOUNT R.functions).2 }) ∧
      (Define_Function2 NAME FUNCTION ARGCOUNT).code.exec R
        = ((registerFunction NAME FUNCTION ARGCOUNT R.functions).1,
           { R with functions := (registerFunction NAME FUNCTION ARGCOUNT R.functions).2 })) ∧
    (3 < ARGCOUNT →
      (Define_Function NAME ARGCOUNT).code.exec R = (.error .InvalidArityError, R) ∧
      (Define_Function2 NAME FUNCTION ARGCOUNT).code.exec R = (.error .InvalidArityError, R) ∧
      (Define_Function NAME ARGCOUNT).run R = .error .InvalidArityError ∧
      (Define_Function2 NAME FUNCTION ARGCOUNT).run R = .error .InvalidArityError) ∧
    (ARGCOUNT ≤ 3 →
      (Define_Function NAME ARGCOUNT).run R
        = .ok { R with functions := NamedRegistry.add (NAME, (ARGCOUNT : Int)) NAME R.functions } ∧
      (Define_Function2 NAME FUNCTION ARGCOUNT).run R
        = .ok { R with
            functions := NamedRegistry.add (NAME, (ARGCOUNT : Int)) FUNCTION R.functions }) := by
  refine ⟨?_, ?_, ⟨rfl, rfl⟩, ?_, ?_⟩
  · intro ha
    have hr : 0 ≤ arity ∧ arity ≤ 3 := by omega
    simp [registerFunction, hr, lookupFunction, find?_add_self]
  · intro ha
    have hr : ¬ (0 ≤ arity ∧ arity ≤ 3) := by omega
    simp [registerFunction, hr]
  · intro hk
    have hr : ¬ ARGCOUNT ≤ 3 := by omega
    simp [Define_Function, Define_Function2, StartupCode.run, Registration.exec,
      registerFunction, hr]
  · intro hk
    simp [Define_Function, Define_Function2, StartupCode.run, Registration.exec,
      registerFunction, hk]

theorem registerFunction_arity_witness :
    ((2 : Int) = 0 ∨ (2 : Int) = 1 ∨ (2 : Int) = 2 ∨ (2 : Int) = 3) ∧
    ((registerFunction "pow" "pow" 2 []).1 = .ok () ∧
      lookupFunction "pow" 2 (registerFunction "pow" "pow" 2 []).2
        = (.ok "pow", (registerFunction "pow" "pow" 2 []).2)) ∧
    ¬ ((4 : Int) = 0 ∨ (4 : Int) = 1 ∨ (4 : Int) = 2 ∨ (4 : Int) = 3) ∧
    registerFunction "f" "f" 4 [⟨("pow", 2), "pow"⟩]
      = (.error .InvalidArityError, [⟨("pow", 2), "pow"⟩]) ∧
    3 < 4 ∧
    (Define_Function "f" 4).run Registries.empty = .error .InvalidArityError ∧
    2 ≤ 3 ∧
    (Define_Function "pow" 2).run Registries.empty
      = .ok { Registries.empty with functions := [⟨("pow", 2), "pow"⟩] } :=
  ⟨by decide,
    (registerFunction_arity "pow" "pow" 2 [] "pow" "pow" 2 Registries.empty).1 (by decide),
    by decide,
    (registerFunction_arity "f" "f" 4 [⟨("pow", 2), "pow"⟩] "f" "f" 4
      Registries.empty).2.1 (by decide),
    by decide,
    ((registerFunction_arity "f" "f" 4 [] "f" "f" 4 Registries.empty).2.2.2.1
      (by decide)).2.2.1,
    by decide,
    ((registerFunction_arity "pow" "pow" 2 [] "pow" "pow" 2 Registries.empty).2.2.2.2
      (by decide)).1⟩

theorem mem_functionCalls (ds : List Declaration) (key : String × Int) :
    key ∈ (ds.filterMap Declaration.functionCall).map Prod.fst
      ↔ ∃ d ∈ ds, ∃ fn, d.functionCall = some (key, fn) := by
  constructor
  · intro h
    obtain ⟨c, hc, rfl⟩ := List.mem_map.mp h
    obtain ⟨d, hd, hcall⟩ := List.mem_filterMap.mp hc
    exact ⟨d, hd, c.2, hcall⟩
  · rintro ⟨d, hd, fn, hcall⟩
    exact List.mem_map.mpr ⟨(key, fn), List.mem_filterMap.mpr ⟨d, hd, hcall⟩, rfl⟩

/-- C3: in the function registry that the registration code of a program
leaves behind, `lookupFunction(name, arity)` succeeds if and only if some
entry has both that name and that arity, which is the case if and only if a
`Define_Function` / `Define_Function2` declaration of the program has them;
it then returns the function of that entry, and otherwise fails with
`UnknownFunctionError`; either way the registry is handed back unchanged.
Two declarations of one name with different arities leave two distinct
entries. -/
theorem lookupFunction_by_name_and_arity (ds : List Declaration) (R : Registries)
    (name : String) (arity : Int) (hstart : execAll ds Registries.empty = .ok R) :
    ((∃ fn, lookupFunction name arity R.functions = (.ok fn, R.functions))
      ↔ ∃ e ∈ R.functions, e.name = (name, arity)) ∧
    ((∃ e ∈ R.functions, e.name = (name, arity))
      ↔ ∃ d ∈ ds, ∃ fn, d.functionCall = some ((name, arity), fn)) ∧
    (∀ e ∈ R.functions, e.name = (name, arity) →
      lookupFunction name arity R.functions = (.ok e.payload, R.functions)) ∧
    ((¬ ∃ e ∈ R.functions, e.name = (name, arity)) →
      lookupFunction name arity R.functions
        = (.error (Error.UnknownFunctionError name), R.functions)) ∧
    (∀ d1 ∈ ds, ∀ d2 ∈ ds, ∀ (arity2 : Int) (f1 f2 : MathFunc),
      d1.functionCall = some ((name, arity), f1) →
      d2.functionCall = some ((name, arity2), f2) → arity ≠ arity2 →
      ∃ e1 ∈ R.functions, ∃ e2 ∈ R.functions,
        e1.name = (name, arity) ∧ e2.name = (name, arity2) ∧ e1 ≠ e2) := by
  have hfn := (execAll_ok_registries ds _ R hstart).2
  have hnd : (R.functions.map RegistryEntry.name).Nodup := by
    rw [hfn]; exact nodup_keys_addAll _ _ List.nodup_nil
  have hB : ∀ e ∈ R.functions, e.name = (name, arity) →
      lookupFunction name arity R.functions = (.ok e.payload, R.functions) := by
    intro e he hname
    have hfind := find?_of_mem R.functions hnd e he
    rw [hname] at hfind
    simp [lookupFunction, hfind]
  have hD : ∀ key : String × Int, (∃ e ∈ R.functions, e.name = key)
      ↔ ∃ d ∈ ds, ∃ fn, d.functionCall = some (key, fn) := by
    intro key
    rw [hfn]
    simp only [Registries.empty]
    rw [mem_addAll_nil_iff, mem_functionCalls]
  refine ⟨?_, hD _, hB, ?_, ?_⟩
  · constructor
    · rintro ⟨fn, hl⟩
      cases hf : NamedRegistry.find? (name, arity) R.functions with
      | none => simp [lookupFunction, hf] at hl
      | some p => exact ⟨_, mem_of_find? _ _ p hf, rfl⟩
    · rintro ⟨e, he, hname⟩
      exact ⟨e.payload, hB e he hname⟩
  · intro hno
    simp [lookupFunction, find?_eq_none _ _ hno]
  · intro d1 hd1 d2 hd2 arity2 f1 f2 h1 h2 hne
    obtain ⟨e1, he1, hn1⟩ := (hD (name, arity)).mpr ⟨d1, hd1, f1, h1⟩
    obtain ⟨e2, he2, hn2⟩ := (hD (name, arity2)).mpr ⟨d2, hd2, f2, h2⟩
    refine ⟨e1, he1, e2, he2, hn1, hn2, ?_⟩
    intro heq
    rw [heq, hn2] at hn1
    exact hne (Prod.mk.inj hn1).2.symm

theorem lookupFunction_by_name_and_arity_witness :
    execAll [.Define_Function "pow" 2] Registries.empty
      = .ok { Registries.empty with functions := [⟨("pow", 2), "pow"⟩] } ∧
    ((∃ e ∈ ([⟨("pow", 2), "pow"⟩] : FunctionRegistry), e.name = ("pow", 2)) ∧
      lookupFunction "pow" 2 [⟨("pow", 2), "pow"⟩] = (.ok "pow", [⟨("pow", 2), "pow"⟩])) ∧
    ((¬ ∃ e ∈ ([⟨("pow", 2), "pow"⟩] : FunctionRegistry), e.name = ("pow", 1)) ∧
      lookupFunction "pow" 1 [⟨("pow", 2), "pow"⟩]
        = (.error (Error.UnknownFunctionError "pow"), [⟨("pow", 2), "pow"⟩])) :=
  ⟨rfl,
    ⟨⟨_, List.mem_singleton.mpr rfl, rfl⟩,
      (lookupFunction_by_name_and_arity [.Define_Function "pow" 2] _ "pow" 2 rfl).2.2.1
        ⟨("pow", 2), "pow"⟩ (List.mem_singleton.mpr rfl) rfl⟩,
    ⟨by decide,
      (lookupFunction_by_name_and_arity [.Define_Function "pow" 2] _ "pow" 1 rfl).2.2.2.1
        (by decide)⟩⟩

/-! ## Theorems: startup queue -/

theorem digitChar_isDigit (m : Nat) (h : m < 10) :
    (Nat.digitChar m).isDigit = true ∧ (Nat.digitChar m).toNat - 48 = m := by
  interval_cases m <;> decide

theorem toDigitsCore_spec (fuel : Nat) : ∀ (n : Nat) (ds : List Char), n < fuel →
    ∃ xs, Nat.toDigitsCore 10 fuel n ds = xs ++ ds ∧ (∀ c ∈ xs, c.isDigit = true) ∧
      xs.foldl (fun a c => 10 * a + (c.toNat - 48)) 0 = n := by
  induction fuel with
  | zero => intro n ds h; omega
  | succ fuel ih =>
      intro n ds h
      have hd := digitChar_isDigit (n % 10) (Nat.mod_lt _ (by decide))
      by_cases h0 : n / 10 = 0
      · refine ⟨[Nat.digitChar (n % 10)], ?_, ?_, ?_⟩
        · simp [Nat.toDigitsCore, h0]
        · intro c hc
          simp only [List.mem_singleton] at hc
          rw [hc]; exact hd.1
        · simp only [List.foldl_cons, List.foldl_nil, hd.2]
          omega
      · have hlt : n / 10 < fuel := by omega
        obtain ⟨xs, hxs, hdig, hval⟩ := ih (n / 10) (Nat.digitChar (n % 10) :: ds) hlt
        refine ⟨xs ++ [Nat.digitChar (n % 10)], ?_, ?_, ?_⟩
        · simp [Nat.toDigitsCore, h0, hxs]
        · intro c hc
          simp only [List.mem_append, List.mem_singleton] at hc
          rcases hc with hc | hc
          · exact hdig c hc
          · rw [hc]; exact hd.1
        · simp only [List.foldl_append, List.foldl_cons, List.foldl_nil, hval, hd.2]
          omega

theorem toString_data_spec (n : Nat) :
    (∀ c ∈ (toString n).data, c.isDigit = true) ∧
    (toString n).data.foldl (fun a c => 10 * a + (c.toNat - 48)) 0 = n := by
  obtain ⟨xs, hxs, hdig, hval⟩ := toDigitsCore_spec (n + 1) n [] (Nat.lt_succ_self n)
  have : (toString n).data = xs := by
    show (Nat.repr n).data = xs
    simp [Nat.repr, Nat.toDigits, hxs, List.asString]
  rw [this]
  exact ⟨hdig, hval⟩

theorem append_sep_inj (c : Char) (hc : c.isDigit = false) :
    ∀ (X Y r1 r2 : List Char), (∀ x ∈ X, x.isDigit = true) → (∀ y ∈ Y, y.isDigit = true) →
      X ++ c :: r1 = Y ++ c :: r2 → X = Y ∧ r1 = r2 := by
  intro X
  induction X with
  | nil =>
      intro Y r1 r2 _ hY h
      cases Y with
      | nil => simpa using h
      | cons y ys =>
          simp only [List.nil_append, List.cons_append, List.cons.injEq] at h
          have := hY y (List.mem_cons_self _ _)
          rw [← h.1, hc] at this
          cases this
  | cons x xs ih =>
      intro Y r1 r2 hX hY h
      cases Y with
      | nil =>
          simp only [List.nil_append, List.cons_append, List.cons.injEq] at h
          have := hX x (List.mem_cons_self _ _)
          rw [h.1, hc] at this
          cases this
      | cons y ys =>
          simp only [List.cons_append, List.cons.injEq] at h
          obtain ⟨h1, h2⟩ := ih ys r1 r2 (fun a ha => hX a (List.mem_cons_of_mem _ ha))
            (fun a ha => hY a (List.mem_cons_of_mem _ ha)) h.2
          exact ⟨by rw [h.1, h1], h2⟩

theorem function_stem_inj (n1 n2 : String) (k1 k2 : Nat)
    (h : n1 ++ "__" ++ toString k1 = n2 ++ "__" ++ toString k2) : n1 = n2 ∧ k1 = k2 := by
  have hdata := congrArg String.data h
  simp only [String.data_append] at hdata
  have hrev := congrArg List.reverse hdata
  simp only [List.reverse_append] at hrev
  have h1 := toString_data_spec k1
  have h2 := toString_data_spec k2
  have hsep : "__".data.reverse = ['_', '_'] := rfl
  rw [hsep] at hrev
  simp only [List.cons_append, List.nil_append] at hrev
  obtain ⟨hX, hr⟩ := append_sep_inj '_' (by decide) _ _ _ _
    (fun x hx => h1.1 x (List.mem_reverse.mp hx)) (fun x hx => h2.1 x (List.mem_reverse.mp hx)) hrev
  have hk : (toString k1).data = (toString k2).data := List.reverse_injective hX
  have hn : n1.data = n2.data := by
    simp only [List.cons.injEq, true_and] at hr
    exact List.reverse_injective hr
  refine ⟨String.ext hn, ?_⟩
  rw [← h1.2, ← h2.2, hk]

theorem ident_eq_stem_pasted (d : Declaration) :
    d.expand.ident = d.stem ++ d.kind.pasted := by
  cases d <;> rfl

theorem pasted_suffix_inj (k1 k2 : EntityKind)
    (h : k1.pasted.data <:+ k2.pasted.data) : k1 = k2 := by
  cases k1 <;> cases k2 <;> first | rfl | (exfalso; revert h; decide)

theorem stem_pasted_inj (b1 b2 : String) (k1 k2 : EntityKind)
    (h : b1 ++ k1.pasted = b2 ++ k2.pasted) : k1 = k2 ∧ b1 = b2 := by
  have hdata := congrArg String.data h
  simp only [String.data_append] at hdata
  have hs1 : k1.pasted.data <:+ b1.data ++ k1.pasted.data := List.suffix_append _ _
  have hs2 : k2.pasted.data <:+ b1.data ++ k1.pasted.data := by
    rw [hdata]; exact List.suffix_append _ _
  have hk : k1 = k2 := by
    rcases List.suffix_or_suffix_of_suffix hs1 hs2 with hsuf | hsuf
    · exact pasted_suffix_inj k1 k2 hsuf
    · exact (pasted_suffix_inj k2 k1 hsuf).symm
  subst hk
  exact ⟨rfl, String.ext (List.append_cancel_right hdata)⟩

theorem name_arity_of_stem (e1 e2 : Declaration) (hk : e1.kind = e2.kind)
    (hstem : e1.stem = e2.stem) : e1.name = e2.name ∧ e1.arity = e2.arity := by
  cases e1 <;> cases e2 <;> try (simp [Declaration.kind] at hk; done)
  all_goals
    first
    | exact ⟨hstem, rfl⟩
    | exact ⟨(function_stem_inj _ _ _ _ hstem).1,
        congrArg some (function_stem_inj _ _ _ _ hstem).2⟩

theorem stem_of_name_arity (e1 e2 : Declaration) (hk : e1.kind = e2.kind)
    (hn : e1.name = e2.name) (ha : e1.arity = e2.arity) : e1.stem = e2.stem := by
  cases e1 <;> cases e2 <;> try (simp [Declaration.kind] at hk; done)
  all_goals
    first
    | exact hn
    | (simp only [Declaration.name] at hn
       simp only [Declaration.arity, Option.some.injEq] at ha
       simp only [Declaration.stem, hn, ha])

/-- C10: the startup identifier determines and is determined by the kind of
the declaration, its name and, for a function, its arity: two declarations
get the same identifier if and only if kind, name and arity agree.  So
`Define_Module(C)` and `Define_Module_Like(C, I)` share an identifier, as do
`Define_Function(N, k)` and `Define_Function2(N, F, k)`, while one function
name declared with two different arities gets two identifiers.  The
identifiers are `NAME__net`, `NAME__channelt`, `NAME__ARGCOUNT__func`,
`NAME__class`, `NAME__mod` and `NAME__if`. -/
theorem startup_ident_injective (d1 d2 : Declaration) (C I N : String) (F : MathFunc)
    (k k2 : Nat) (descr : List DeclarationItem) :
    (d1.expand.ident = d2.expand.ident
      ↔ d1.kind = d2.kind ∧ d1.name = d2.name ∧ d1.arity = d2.arity) ∧
    ((Define_Network N).ident = N ++ "__net" ∧
      (Define_Channel N).ident = N ++ "__channelt" ∧
      (Define_Function N k).ident = N ++ "__" ++ toString k ++ "__func" ∧
      (Define_Function2 N F k).ident = N ++ "__" ++ toString k ++ "__func" ∧
      (Register_Class C).ident = C ++ "__class" ∧
      (Define_Module C).ident = C ++ "__mod" ∧
      (Define_Module_Like C I).ident = C ++ "__mod" ∧
      (Register_ModuleInterface C descr).ident = C ++ "__if") ∧
    (Define_Module C).ident = (Define_Module_Like C I).ident ∧
    (Define_Function N k).ident = (Define_Function2 N F k).ident ∧
    (k ≠ k2 → (Define_Function N k).ident ≠ (Define_Function N k2).ident) := by
  have key : ∀ e1 e2 : Declaration, e1.expand.ident = e2.expand.ident
      ↔ e1.kind = e2.kind ∧ e1.name = e2.name ∧ e1.arity = e2.arity := by
    intro e1 e2
    constructor
    · intro h
      rw [ident_eq_stem_pasted, ident_eq_stem_pasted] at h
      obtain ⟨hk, hstem⟩ := stem_pasted_inj _ _ _ _ h
      exact ⟨hk, name_arity_of_stem e1 e2 hk hstem⟩
    · rintro ⟨hk, hn, ha⟩
      rw [ident_eq_stem_pasted, ident_eq_stem_pasted, hk, stem_of_name_arity e1 e2 hk hn ha]
  refine ⟨key d1 d2, ⟨rfl, rfl, rfl, rfl, rfl, rfl, rfl, rfl⟩, rfl, rfl, ?_⟩
  intro hne heq
  have := (key (.Define_Function N k) (.Define_Function N k2)).mp heq
  simp only [Declaration.arity, Option.some.injEq] at this
  exact hne this.2.2

theorem startup_ident_injective_witness :
    (2 : Nat) ≠ 1 ∧ (Define_Function "pow" 2).ident ≠ (Define_Function "pow" 1).ident :=
  ⟨by decide,
    (startup_ident_injective (.Define_Network "N") (.Define_Network "N") "C" "I" "pow" "pow"
      2 1 []).2.2.2.2 (by decide)⟩

end Omnetpp
